import Mathlib

/-
Verification of the person_course assembly pipeline of edx2bigquery
(src/edx2bigquery/make_person_course.py and the person_course branch of
src/edx2bigquery/main.py), as a shallow embedding in Lean 4.

Python records (dicts decoded from JSON lines) are modelled as ordered
association lists from field names to scalar values; the OrderedDict record
store is an ordered association list from key values to records.  External
collaborators that are part of the repository but not present under src/
(bqutil.get_bq_table, bqutil.get_tables, check_schema from
check_schema_tracking_log) are modelled from the spec, and are marked as such
in their doc comments.
-/

set_option autoImplicit false

namespace Edx2BigQuery

/-- A scalar value of a Python record decoded from a JSON line: a string, an
integer, a float (modelled as a rational), a boolean, or None. -/
inductive Value where
  | str (s : String)
  | int (n : Int)
  | float (q : Rat)
  | bool (b : Bool)
  | null
deriving DecidableEq

/-- A Python dict record: an ordered association list from field names to
scalar values (duck-typed record growth, per the data model). -/
abbrev Record : Type := List (String × Value)

/-- The record store (`self.pctab` and friends): an OrderedDict from key
values to records, modelled as an ordered association list. -/
abbrev Store : Type := List (Value × Record)

instance instDecEqExcept {ε α : Type _} [DecidableEq ε] [DecidableEq α] :
    DecidableEq (Except ε α) := fun a b =>
  match a, b with
  | .error e1, .error e2 =>
    if h : e1 = e2 then isTrue (congrArg Except.error h)
    else isFalse (fun hh => h (Except.error.inj hh))
  | .error _, .ok _ => isFalse (fun hh => Except.noConfusion hh)
  | .ok _, .error _ => isFalse (fun hh => Except.noConfusion hh)
  | .ok a1, .ok a2 =>
    if h : a1 = a2 then isTrue (congrArg Except.ok h)
    else isFalse (fun hh => h (Except.ok.inj hh))

/-- Dict read `r.get(k)`: the value at the first occurrence of field `k`. -/
def recordGet : Record → String → Option Value
  | [], _ => none
  | p :: ps, k => if p.1 = k then some p.2 else recordGet ps k

/-- Dict write `r[k] = v`: replace the value at an existing field in place,
otherwise append the new field at the end (Python dict assignment). -/
def recordSet : Record → String → Value → Record
  | [], k, v => [(k, v)]
  | p :: ps, k, v => if p.1 = k then (k, v) :: ps else p :: recordSet ps k v

/-- Test `k in r`. -/
def recordHas (r : Record) (k : String) : Bool :=
  (recordGet r k).isSome

/-- OrderedDict read on the store. -/
def storeGet : Store → Value → Option Record
  | [], _ => none
  | p :: ps, k => if p.1 = k then some p.2 else storeGet ps k

/-- OrderedDict write on the store: overwrite in place or append. -/
def storeSet : Store → Value → Record → Store
  | [], k, r => [(k, r)]
  | p :: ps, k, r => if p.1 = k then (k, r) :: ps else p :: storeSet ps k r

/-- The ordered list of keys of the store. -/
def storeKeys (s : Store) : List Value :=
  s.map Prod.fst

/-- Python `str(v)` on the scalar values that occur as record identities. -/
def pyStr : Value → String
  | .str s => s
  | .int n => toString n
  | .float q => toString q
  | .bool b => if b then "True" else "False"
  | .null => "None"

/-- Python `int(v)`: `none` models the cases where Python `int()` raises
(unparsable string, `None`). -/
def pyInt : Value → Option Int
  | .str s => s.toInt?
  | .int n => some n
  | .float q => some (q.num.tdiv q.den)
  | .bool b => some (if b then 1 else 0)
  | .null => none

/-- Python truthiness of a scalar value (`if le:`). -/
def truthy : Value → Bool
  | .str s => s ≠ ""
  | .int n => n ≠ 0
  | .float q => q ≠ 0
  | .bool b => b
  | .null => false

/-- One iteration of the PersonCourse.load_json loop: a row carrying the key
field is stored under it, a row without the key field is reported with a
print and skipped (the loop continues). -/
def loadJsonStep (key : String) (data : Store) (jd : Record) : Store :=
  match recordGet jd key with
  | some the_id => storeSet data the_id jd
  | none => data

/-- PersonCourse.load_json: fold the loop step over the decoded JSON rows of
the input file.  The JSON decoding of each line is done by the excluded json
collaborator, so the input is the list of decoded rows. -/
def load_json (rows : List Record) (key : String) : Store :=
  rows.foldl (loadJsonStep key) []

/-- A target in PersonCourse.copy_fields: either a single source field name,
or an ordered fallback list of candidate source field names. -/
inductive FieldSpec where
  | single (v : String)
  | fallback (vs : List String)

/-- First candidate of a fallback list that is present in the source record. -/
def firstPresent (src : Record) : List String → Option Value
  | [] => none
  | v :: vs =>
    match recordGet src v with
    | some x => some x
    | none => firstPresent src vs

/-- PersonCourse.copy_fields: for each (key, val) of the field map, if val is
a list try each candidate source field in order and copy the first present
one; otherwise copy the single source field when present. -/
def copy_fields (src : Record) (dst : Record) (fields : List (String × FieldSpec)) : Record :=
  fields.foldl
    (fun dst kv =>
      match kv.2 with
      | .single v =>
        match recordGet src v with
        | some x => recordSet dst kv.1 x
        | none => dst
      | .fallback vs =>
        match firstPresent src vs with
        | some x => recordSet dst kv.1 x
        | none => dst)
    dst

/-- The field map of compute_first_phase (the dict literal at the
copy_fields call). -/
def phase1FieldMap : List (String × FieldSpec) :=
  [("course_id", .fallback ["enrollment_course_id", "certificate_course_id"]),
   ("user_id", .single "user_id"),
   ("username", .single "username"),
   ("gender", .single "profile_gender"),
   ("LoE", .single "profile_level_of_education"),
   ("YoB", .single "profile_year_of_birth"),
   ("grade", .single "certificate_grade"),
   ("start_time", .single "enrollment_created"),
   ("mode", .single "enrollment_mode")]

/-- The certificate test of compute_first_phase:
uicent.get(certificate_status, empty) in [downloadable, unavailable]. -/
def certStatusCertified (uicent : Record) : Bool :=
  match recordGet uicent "certificate_status" with
  | some (.str s) => s = "downloadable" ∨ s = "unavailable"
  | _ => false

/-- The record built by one iteration of the compute_first_phase loop from
one user_info_combo entry. -/
def phase1Entry (uicent : Record) : Record :=
  let pcent := copy_fields uicent [] phase1FieldMap
  let pcent := recordSet pcent "registered" (.bool true)
  recordSet pcent "certified" (.bool (certStatusCertified uicent))

/-- PersonCourse.compute_first_phase: seed the (empty) record store with one
record per user_info_combo entry, keyed by username (the key of uicdat). -/
def compute_first_phase (uicdat : Store) : Store :=
  uicdat.map (fun kv => (kv.1, phase1Entry kv.2))

/-- A downloaded BigQuery table (RemoteAggregateResult): its rows keyed by
the declared key field, as found in the data_by_key dict. -/
structure BqTable where
  data_by_key : Store
deriving DecidableEq

/-- Lookup src.data_by_key.get(username, empty dict).get(field, None). -/
def bqLookup (src : BqTable) (username : Value) (field : String) : Option Value :=
  match storeGet src.data_by_key username with
  | some row => recordGet row field
  | none => none

/-- PersonCourse.copy_from_bq_table: copy one field from a downloaded BQ
table row into the person course record, optionally renaming it, optionally
re-encoding the destination field as UTF-8 (the encode is the identity on
the decoded strings of this model). -/
def copy_from_bq_table (src : BqTable) (dst : Record) (username : Value)
    (field : String) (new_field : Option String) (mkutf : Bool) : Record :=
  match bqLookup src username field with
  | none => dst
  | some datum =>
    let dst :=
      match new_field with
      | some nf => recordSet dst nf datum
      | none => recordSet dst field datum
    if mkutf then
      match recordGet dst field with
      | some dv => recordSet dst field dv
      | none => dst
    else dst

/-- A `for pcdf in fields: copy_from_bq_table(...)` loop over a list of
(field, optional rename) pairs, as in phases 2 and 3. -/
def copyFieldList (src : BqTable) (username : Value)
    (pairs : List (String × Option String)) (dst : Record) : Record :=
  pairs.foldl (fun d fp => copy_from_bq_table src d username fp.1 fp.2 false) dst

/-- Shared shape of the per-record enrichment loops of phases 2, 3 and 4:
iterate over the store in order, rewriting each record in place; a Python
exception at some record stops the loop, leaving the already-processed
records enriched and the rest untouched (the error carries the message and
the partially enriched store). -/
def storeMapE (f : Record → Except (String × Record) Record) :
    Store → Except (String × Store) Store
  | [] => .ok []
  | kv :: rest =>
    match f kv.2 with
    | .error (msg, pr) => .error (msg, (kv.1, pr) :: rest)
    | .ok r2 =>
      match storeMapE f rest with
      | .error (msg, s) => .error (msg, (kv.1, r2) :: s)
      | .ok s => .ok ((kv.1, r2) :: s)

/-- The state of the record store after a phase loop, whether the loop
completed or raised part-way through. -/
def resultStore : Except (String × Store) Store → Store
  | .ok s => s
  | .error e => e.2

/-- The forum field rename pairs of the compute_second_phase loop, in source
order. -/
def forumFieldPairs : List (String × Option String) :=
  [("nforum", some "nforum_posts"),
   ("nvotes", some "nforum_votes"),
   ("nendorsed", some "nforum_endorsed"),
   ("nthread", some "nforum_threads"),
   ("ncomment", some "nforum_comments"),
   ("npinned", some "nforum_pinned")]

/-- One iteration of the compute_second_phase loop on one record:
uid = str of the user_id field (KeyError when absent); when uid is a key of
pc_nchapters set viewed, nchapters (via int(), which can raise) and explored
(count at least nchapters over two, Python 2 floor division); when uid is
absent set viewed false only; then copy the six forum fields. -/
def phase2Record (pc_nchapters pc_forum : BqTable) (nchapters : Nat) (pcent : Record) :
    Except (String × Record) Record :=
  match recordGet pcent "user_id" with
  | none => .error ("KeyError: user_id", pcent)
  | some v =>
    let uid := pyStr v
    let afterN : Except (String × Record) Record :=
      match storeGet pc_nchapters.data_by_key (.str uid) with
      | some row =>
        let pcent1 := recordSet pcent "viewed" (.bool true)
        match recordGet row "nchapters" with
        | none => .error ("KeyError: nchapters", pcent1)
        | some nv =>
          match pyInt nv with
          | none => .error ("ValueError: invalid literal for int", pcent1)
          | some n =>
            let pcent2 := recordSet pcent1 "nchapters" (.int n)
            .ok (recordSet pcent2 "explored" (.bool (decide (((nchapters / 2 : Nat) : Int) ≤ n))))
      | none => .ok (recordSet pcent "viewed" (.bool false))
    match afterN with
    | .error e => .error e
    | .ok pcent3 => .ok (copyFieldList pc_forum (.str uid) forumFieldPairs pcent3)

/-- PersonCourse.get_nchapters_from_course_structure: count the entries of
the course structure document whose category field equals chapter; a
structure entry without a category field raises a KeyError. -/
def get_nchapters_from_course_structure (struct : Store) : Except String Nat :=
  struct.foldl
    (fun acc kv =>
      acc.bind (fun n =>
        match recordGet kv.2 "category" with
        | none => .error "KeyError: category"
        | some c => .ok (if c = .str "chapter" then n + 1 else n)))
    (.ok 0)

/-- The day-totals field list pcd_fields of compute_third_phase, in source
order; the second component is the rename target when the source entry is a
pair. -/
def pcdFieldPairs : List (String × Option String) :=
  [("nevents", none), ("ndays_act", none), ("nprogcheck", none),
   ("nshow_answer", none), ("nvideo", none), ("nproblem_check", none),
   ("nforum", some "nforum_events"), ("ntranscript", none), ("nseq_goto", none),
   ("nvideo", some "nplay_video"), ("nseek_video", none), ("npause_video", none),
   ("avg_dt", none), ("sdv_dt", none), ("max_dt", none), ("n_dt", none),
   ("sum_dt", none)]

/-- One iteration of the compute_third_phase loop: username lookup (KeyError
when absent); last_event, when present and truthy, converted from epoch
seconds to a calendar string by the excluded datetime collaborator
(utcfromtimestamp here; a failed conversion is logged and the raw value is
kept), and the result assigned; then modal_ip copied into ip, then the
day-totals field list copied. -/
def phase3Record (pc_last_event pc_day_totals pc_modal_ip : BqTable)
    (utcfromtimestamp : Value → Option String) (pcent : Record) :
    Except (String × Record) Record :=
  match recordGet pcent "username" with
  | none => .error ("KeyError: username", pcent)
  | some username =>
    let pcent :=
      match bqLookup pc_last_event username "last_event" with
      | some le =>
        if truthy le then
          let le2 :=
            match utcfromtimestamp le with
            | some s => Value.str s
            | none => le
          recordSet pcent "last_event" le2
        else pcent
      | none => pcent
    let pcent := copy_from_bq_table pc_modal_ip pcent username "modal_ip" (some "ip") false
    .ok (copyFieldList pc_day_totals username pcdFieldPairs pcent)

/-- One iteration of the compute_fourth_phase loop: username lookup (KeyError
when absent); country copied into cc_by_ip, latitude and longitude copied
verbatim, countryLabel and city copied with UTF-8 re-encode. -/
def phase4Record (pc_geoip : BqTable) (pcent : Record) : Except (String × Record) Record :=
  match recordGet pcent "username" with
  | none => .error ("KeyError: username", pcent)
  | some username =>
    let pcent := copy_from_bq_table pc_geoip pcent username "country" (some "cc_by_ip") false
    let pcent := copy_from_bq_table pc_geoip pcent username "latitude" none false
    let pcent := copy_from_bq_table pc_geoip pcent username "longitude" none false
    let pcent := copy_from_bq_table pc_geoip pcent username "countryLabel" none true
    .ok (copy_from_bq_table pc_geoip pcent username "city" none true)

/-- One remote BigQuery operation, recorded in an operation trace. -/
inductive BqOp where
  | getTables (dataset : String)
  | readTable (dataset : String) (tablename : String)
  | runQuery (dataset : String) (tablename : String)
deriving DecidableEq

/-- The remote BigQuery engine as seen by the pipeline: which tables exist
per dataset, the contents of an existing materialized table, and the result
a query for a given derived table would produce. -/
structure BqEnv where
  existingTables : String → List String
  tableContents : String → String → BqTable
  queryResult : String → String → BqTable

/-- Modelled from the spec: bqutil.get_bq_table (bqutil is part of the
repository but not under src/).  Per spec section 4.3, if a materialized
table named tablename already exists and forceRecompute is false, its
contents are returned directly with no query executed; otherwise the query
is submitted and its result persisted as the materialized table.  The
operation list records which remote action ran. -/
def get_bq_table (env : BqEnv) (dataset tablename : String) (force_query : Bool) :
    BqTable × List BqOp :=
  if tablename ∈ env.existingTables dataset ∧ force_query = false then
    (env.tableContents dataset tablename, [.readTable dataset tablename])
  else
    (env.queryResult dataset tablename, [.runQuery dataset tablename])

/-- PersonCourse.load_nchapters: the get_bq_table call omits the force_query
argument, so the loader default (false) is always used, whatever the value
of the pipeline flag force_recompute_from_logs. -/
def load_nchapters (env : BqEnv) (dataset : String) : BqTable × List BqOp :=
  get_bq_table env dataset "pc_nchapters" false

/-- PersonCourse.load_pc_forum: passes force_recompute_from_logs through as
force_query. -/
def load_pc_forum (env : BqEnv) (dataset : String) (force_recompute_from_logs : Bool) :
    BqTable × List BqOp :=
  get_bq_table env dataset "pc_forum" force_recompute_from_logs

/-- PersonCourse.load_pc_day_totals: passes force_recompute_from_logs
through as force_query. -/
def load_pc_day_totals (env : BqEnv) (dataset : String) (force_recompute_from_logs : Bool) :
    BqTable × List BqOp :=
  get_bq_table env dataset "pc_day_totals" force_recompute_from_logs

/-- PersonCourse.load_last_event: passes force_recompute_from_logs through
as force_query. -/
def load_last_event (env : BqEnv) (dataset : String) (force_recompute_from_logs : Bool) :
    BqTable × List BqOp :=
  get_bq_table env dataset "pc_last_event" force_recompute_from_logs

/-- PersonCourse.load_modal_ip: passes force_recompute_from_logs through as
force_query. -/
def load_modal_ip (env : BqEnv) (dataset : String) (force_recompute_from_logs : Bool) :
    BqTable × List BqOp :=
  get_bq_table env dataset "pc_modal_ip" force_recompute_from_logs

/-- PersonCourse.load_pc_geoip: passes force_recompute_from_logs through as
force_query. -/
def load_pc_geoip (env : BqEnv) (dataset : String) (force_recompute_from_logs : Bool) :
    BqTable × List BqOp :=
  get_bq_table env dataset "pc_geoip" force_recompute_from_logs

/-- PersonCourse.compute_second_phase: load pc_nchapters and pc_forum, count
the course chapters from the local structure document, then run the
enrichment loop over every record of the store.  The pair also returns the
remote operation trace of the two loads. -/
def compute_second_phase (env : BqEnv) (force_recompute_from_logs : Bool)
    (dataset : String) (struct : Store) (pctab : Store) :
    Except (String × Store) Store × List BqOp :=
  let nt := load_nchapters env dataset
  let ft := load_pc_forum env dataset force_recompute_from_logs
  let res :=
    match get_nchapters_from_course_structure struct with
    | .error e => .error (e, pctab)
    | .ok nchapters => storeMapE (phase2Record nt.1 ft.1 nchapters) pctab
  (res, nt.2 ++ ft.2)

/-- PersonCourse.compute_third_phase: load pc_last_event, pc_day_totals and
pc_modal_ip, then run the enrichment loop over every record of the store.
No daily-table existence check of any kind is performed.  The pair also
returns the remote operation trace of the three loads. -/
def compute_third_phase (env : BqEnv) (force_recompute_from_logs : Bool)
    (utcfromtimestamp : Value → Option String) (dataset : String) (pctab : Store) :
    Except (String × Store) Store × List BqOp :=
  let le := load_last_event env dataset force_recompute_from_logs
  let dt := load_pc_day_totals env dataset force_recompute_from_logs
  let mi := load_modal_ip env dataset force_recompute_from_logs
  (storeMapE (phase3Record le.1 dt.1 mi.1 utcfromtimestamp) pctab, le.2 ++ dt.2 ++ mi.2)

/-- PersonCourse.compute_fourth_phase: load pc_geoip, then run the
enrichment loop over every record of the store. -/
def compute_fourth_phase (env : BqEnv) (force_recompute_from_logs : Bool)
    (dataset : String) (pctab : Store) :
    Except (String × Store) Store × List BqOp :=
  let g := load_pc_geoip env dataset force_recompute_from_logs
  (storeMapE (phase4Record g.1) pctab, g.2)

/-- A calendar date, as handled by the daterange helper of
ensure_all_daily_tables_loaded. -/
structure Date where
  year : Nat
  month : Nat
  day : Nat
deriving DecidableEq

/-- Gregorian leap year rule (datetime's calendar). -/
def isLeap (y : Nat) : Bool :=
  decide ((y % 4 = 0 ∧ y % 100 ≠ 0) ∨ y % 400 = 0)

/-- Days in a month of the Gregorian calendar. -/
def daysInMonth (y m : Nat) : Nat :=
  if m = 2 then (if isLeap y then 29 else 28)
  else if m = 4 ∨ m = 6 ∨ m = 9 ∨ m = 11 then 30
  else 31

/-- The k plus timedelta(days=1) step of the daterange loop. -/
def nextDay (d : Date) : Date :=
  if d.day < daysInMonth d.year d.month then ⟨d.year, d.month, d.day + 1⟩
  else if d.month < 12 then ⟨d.year, d.month + 1, 1⟩
  else ⟨d.year + 1, 1, 1⟩

/-- The datetime comparison k less-or-equal end (lexicographic on year,
month, day). -/
def dateLe (a b : Date) : Bool :=
  decide (a.year < b.year ∨ (a.year = b.year ∧
    (a.month < b.month ∨ (a.month = b.month ∧ a.day ≤ b.day))))

/-- Left-pad a number with zeros to the given width (the %04d and %02d
formats). -/
def padNum (width n : Nat) : String :=
  let s := toString n
  String.mk (List.replicate (width - s.length) (Char.ofNat 48)) ++ s

/-- The %04d%02d%02d date format of the daterange helper. -/
def dateStr (d : Date) : String :=
  padNum 4 d.year ++ padNum 2 d.month ++ padNum 2 d.day

/-- A strict upper bound on the number of daterange iterations: nextDay
strictly increases this rank on calendar dates, so the fuel below suffices. -/
def dateRank (d : Date) : Nat :=
  d.year * 372 + d.month * 31 + d.day

/-- The daterange while loop, with the iteration count made explicit. -/
def daterangeAux : Nat → Date → Date → List String
  | 0, _, _ => []
  | fuel + 1, k, e => if dateLe k e then dateStr k :: daterangeAux fuel (nextDay k) e else []

/-- The daterange helper of ensure_all_daily_tables_loaded: the formatted
dates from start to the end date inclusive. -/
def daterange (start finish : Date) : List String :=
  daterangeAux (dateRank finish + 1 - dateRank start) start finish

/-- Split a character list at the dash separators of a %Y-%m-%d date. -/
def splitDash : List Char → List (List Char)
  | [] => [[]]
  | c :: cs =>
    if c = Char.ofNat 45 then [] :: splitDash cs
    else
      match splitDash cs with
      | [] => [[c]]
      | g :: gs => (c :: g) :: gs

/-- Read a nonempty digit group as a number; none on a non-digit. -/
def digitsToNat? (cs : List Char) : Option Nat :=
  if cs.isEmpty then none
  else
    cs.foldl
      (fun acc c =>
        acc.bind (fun n => if c.isDigit then some (n * 10 + (c.toNat - 48)) else none))
      (some 0)

/-- The strptime call d2dt parsing a %Y-%m-%d date string; none models the
ValueError strptime raises on malformed input. -/
def d2dt (s : String) : Option Date :=
  match splitDash s.data with
  | [ys, ms, ds] =>
    match digitsToNat? ys, digitsToNat? ms, digitsToNat? ds with
    | some y, some m, some d =>
      if 1 ≤ m ∧ m ≤ 12 ∧ 1 ≤ d ∧ d ≤ daysInMonth y m then some ⟨y, m, d⟩ else none
    | _, _, _ => none
  | _ => none

/-- The loop body of ensure_all_daily_tables_loaded: the first date of the
range whose table (tname equal tpre underscore date) is not among the
dataset's tables. -/
def findMissing (tables : List String) (tpre : String) : List String → Option String
  | [] => none
  | k :: ks =>
    if (tpre ++ "_" ++ k) ∈ tables then findMissing tables tpre ks else some k

/-- PersonCourse.ensure_all_daily_tables_loaded: list the tables of the
dataset with the given suffix (bqutil.get_tables, modelled from the spec and
recorded in the trace), walk every date from start_date to end_date, and
raise naming the first missing daily table; return unit when every date has
its table. -/
def ensure_all_daily_tables_loaded (env : BqEnv) (dataset dsuffix tpre start_date end_date : String) :
    Except String Unit × List BqOp :=
  let ds := dataset ++ "_" ++ dsuffix
  let tables := env.existingTables ds
  let res : Except String Unit :=
    match d2dt start_date, d2dt end_date with
    | some s, some e =>
      match findMissing tables tpre (daterange s e) with
      | some k =>
        .error ("Oops, missing needed table " ++ tpre ++ "_" ++ k ++ " from database " ++ ds)
      | none => .ok ()
    | _, _ => .error "ValueError: time data does not match format"
  (res, [.getTables ds])

/-- PersonCourse.ensure_all_daily_tracking_logs_loaded. -/
def ensure_all_daily_tracking_logs_loaded (env : BqEnv) (dataset start_date end_date : String) :
    Except String Unit × List BqOp :=
  ensure_all_daily_tables_loaded env dataset "logs" "tracklog" start_date end_date

/-- PersonCourse.ensure_all_pc_day_tables_loaded. -/
def ensure_all_pc_day_tables_loaded (env : BqEnv) (dataset start_date end_date : String) :
    Except String Unit × List BqOp :=
  ensure_all_daily_tables_loaded env dataset "pcday" "pcday" start_date end_date

/-- The person_course schema as used by output_table: the declared field
names in schema order (the keys of the_dict_schema), and the per-field
coercion of check_schema: a cast applied to a declared field that is
present, and an optional default for a declared field that is absent. -/
structure SchemaDict where
  fields : List String
  cast : String → Value → Value
  defaultVal : String → Option Value

/-- Modelled from the spec: check_schema with coerce true, from
check_schema_tracking_log (part of the repository but not under src/).  Per
spec section 4.2, each field declared in the schema but absent or wrong-typed
has the declared default or cast applied, and fields present in the record
but not declared in the schema are passed through unchanged; per-field
mismatches are only counted, never raised. -/
def check_schema_coerce (sd : SchemaDict) (r : Record) : Record :=
  (r.map (fun p => if p.1 ∈ sd.fields then (p.1, sd.cast p.1 p.2) else p))
  ++ ((sd.fields.filter (fun f => (recordGet r f).isNone)).filterMap
      (fun f => (sd.defaultVal f).map (fun v => (f, v))))

/-- Does the record carry a field not declared among the writer's column
names?  (The condition under which csv.DictWriter.writerow raises, its
extrasaction option being left at the default raise.) -/
def hasUndeclared (fieldnames : List String) (r : Record) : Bool :=
  r.any (fun p => decide (p.1 ∉ fieldnames))

/-- csv.DictWriter.writerow on one record: the writer was constructed with
the declared schema field list as fieldnames and the defaults
extrasaction raise and restval the empty string, so a record with an
undeclared field raises a ValueError, and a missing declared field is
written as the empty string. -/
def dictWriterRow (fieldnames : List String) (r : Record) : Except String (List Value) :=
  if hasUndeclared fieldnames r then
    .error "ValueError: dict contains fields not in fieldnames"
  else
    .ok (fieldnames.map (fun f => (recordGet r f).getD (.str "")))

/-- The CSV writing loop of output_table: rows in store order, stopping at
the first writer error (which output_table logs and re-raises). -/
def writeRows (fieldnames : List String) : List Record → Except String (List (List Value))
  | [] => .ok []
  | r :: rs =>
    match dictWriterRow fieldnames r with
    | .error e => .error e
    | .ok row =>
      match writeRows fieldnames rs with
      | .error e => .error e
      | .ok rows => .ok (row :: rows)

/-- PersonCourse.output_table: every record is coerced against the schema
and written as one structured JSON line (this pass completes first), then
the same coerced records are written as flattened CSV rows whose columns are
the declared schema field list; a CSV writer error is logged and re-raised. -/
def output_table (sd : SchemaDict) (pctab : Store) :
    List Record × Except String (List (List Value)) :=
  let coerced := pctab.map (fun kv => check_schema_coerce sd kv.2)
  (coerced, writeRows sd.fields coerced)

/-- Python x or dflt on an optional command line string (None and the empty
string both fall back to the default). -/
def pyOr (o : Option String) (dflt : String) : String :=
  match o with
  | some s => if s = "" then dflt else s
  | none => dflt

/-- The date bounds the person_course command of main.CommandLine passes to
make_person_course: args.start_date or 2012-09-05, and args.end_date or
2014-09-21. -/
def person_course_cmd_dates (start_date end_date : Option String) : String × String :=
  (pyOr start_date "2012-09-05", pyOr end_date "2014-09-21")

/-- The default start of the make_person_course function signature. -/
def make_person_course_default_start : String := "2012-09-05"

/-- The default end of the make_person_course function signature. -/
def make_person_course_default_end : String := "2013-09-21"

/-- The sdv_dt aggregate of the pc_day_totals query, i.e. the line
sqrt(sum(sdv_dt times sdv_dt times n_dt) over sum(n_dt)) of the SQL text in
load_pc_day_totals, as a function of the per-day (avg_dt, sdv_dt, n_dt)
rows of one username group. -/
noncomputable def pc_day_totals_sdv (days : List (Real × Real × Real)) : Real :=
  Real.sqrt ((days.map (fun t => t.2.1 * t.2.1 * t.2.2)).sum /
    (days.map (fun t => t.2.2)).sum)

/-- A naive average of the per-day standard deviations, for contrast with
the pooled formula the query actually uses. -/
noncomputable def naive_avg_sdv (days : List (Real × Real × Real)) : Real :=
  (days.map (fun t => t.2.1)).sum / (days.length : Real)

/-- A remote engine with no materialized tables at all (in particular no
daily pcday or tracklog tables). -/
def envNoTables : BqEnv :=
  ⟨fun _ => [], fun _ _ => ⟨[]⟩, fun _ _ => ⟨[]⟩⟩

/-- A remote engine where pc_nchapters is already materialized but
pc_day_totals is not. -/
def envNchaptersOnly : BqEnv :=
  ⟨fun _ => ["pc_nchapters"], fun _ _ => ⟨[]⟩, fun _ _ => ⟨[]⟩⟩

/-- A two-field schema fixture for the publisher. -/
def sdEx : SchemaDict :=
  ⟨["course_id", "user_id"], fun _ v => v, fun _ => none⟩

/-- A one-record store whose record carries the undeclared extra field zzz. -/
def storeEx : Store :=
  [(.str "alice", [("course_id", .str "C1"), ("user_id", .int 1), ("zzz", .str "extra")])]

/-- A one-chapter course structure document. -/
def struct0 : Store :=
  [(.str "c1", [("category", Value.str "chapter")])]

/-- A two-record store whose second record lacks user_id (possible after
Phase 1, whose fallback copy rule skips absent source fields). -/
def pctab0 : Store :=
  [(.str "alice", [("user_id", .int 1), ("username", .str "alice")]),
   (.str "bob", [("username", .str "bob")])]

/-- A pc_nchapters fixture: user 1 viewed 5 chapters, user 2 viewed 4. -/
def nchT : BqTable :=
  ⟨[(.str "1", [("nchapters", Value.int 5)]),
    (.str "2", [("nchapters", Value.int 4)])]⟩

/-- An empty pc_forum fixture. -/
def forumT : BqTable := ⟨[]⟩

/-- A seed record for user 1. -/
def recA : Record := [("user_id", .int 1)]

/-- A seed record for user 2. -/
def recB : Record := [("user_id", .int 2)]

/-- A seed record for user 3, absent from the nchapters fixture. -/
def recC : Record := [("user_id", .int 3)]

-- ---------------------------------------------------------------------------
-- Lemmas and theorems
-- ---------------------------------------------------------------------------

@[simp] theorem recordGet_nil (k : String) : recordGet [] k = none := rfl

@[simp] theorem recordGet_cons (p : String × Value) (ps : Record) (k : String) :
    recordGet (p :: ps) k = if p.1 = k then some p.2 else recordGet ps k := rfl

@[simp] theorem recordSet_nil (k : String) (v : Value) : recordSet [] k v = [(k, v)] := rfl

@[simp] theorem recordSet_cons (p : String × Value) (ps : Record) (k : String) (v : Value) :
    recordSet (p :: ps) k v = if p.1 = k then (k, v) :: ps else p :: recordSet ps k v := rfl

theorem recordGet_set_self (r : Record) (k : String) (v : Value) :
    recordGet (recordSet r k v) k = some v := by
  induction r with
  | nil => simp [recordGet, recordSet]
  | cons p ps ih =>
    by_cases h : p.1 = k
    · simp [recordSet, recordGet, h]
    · simp [recordSet, recordGet, h, ih]

theorem recordGet_set_ne (r : Record) (k k' : String) (v : Value) (h : k' ≠ k) :
    recordGet (recordSet r k v) k' = recordGet r k' := by
  have hk : ¬ k = k' := fun hh => h hh.symm
  induction r with
  | nil => simp [recordGet, recordSet, hk]
  | cons p ps ih =>
    by_cases hp : p.1 = k
    · subst hp
      simp [recordSet, recordGet, hk]
    · simp [recordSet, recordGet, hp, ih]

theorem recordGet_copy_from_bq_table_ne (src : BqTable) (dst : Record) (username : Value)
    (field : String) (new_field : Option String) (k : String)
    (h1 : k ≠ (new_field.getD field)) (h2 : k ≠ field) :
    recordGet (copy_from_bq_table src dst username field new_field false) k = recordGet dst k := by
  unfold copy_from_bq_table
  cases bqLookup src username field with
  | none => rfl
  | some datum =>
    cases new_field with
    | none => simpa using recordGet_set_ne dst field k datum h2
    | some nf => simpa using recordGet_set_ne dst nf k datum (by simpa using h1)

theorem recordGet_copyFieldList_ne (src : BqTable) (username : Value)
    (pairs : List (String × Option String)) (dst : Record) (k : String)
    (h : ∀ fp ∈ pairs, k ≠ fp.2.getD fp.1 ∧ k ≠ fp.1) :
    recordGet (copyFieldList src username pairs dst) k = recordGet dst k := by
  induction pairs generalizing dst with
  | nil => rfl
  | cons fp ps ih =>
    have hfp := h fp (List.mem_cons_self fp ps)
    calc recordGet (copyFieldList src username (fp :: ps) dst) k
        = recordGet (copy_from_bq_table src dst username fp.1 fp.2 false) k := by
          exact ih (copy_from_bq_table src dst username fp.1 fp.2 false)
            (fun q hq => h q (List.mem_cons_of_mem fp hq))
      _ = recordGet dst k :=
          recordGet_copy_from_bq_table_ne src dst username fp.1 fp.2 k hfp.1 hfp.2

theorem get_bq_table_trace (env : BqEnv) (ds tn : String) (force : Bool) :
    (get_bq_table env ds tn force).2
      = if tn ∈ env.existingTables ds ∧ force = false
        then [BqOp.readTable ds tn] else [BqOp.runQuery ds tn] := by
  unfold get_bq_table
  split <;> rfl

theorem storeSet_all (p : Value × Record → Bool) (s : Store) (k : Value) (r : Record)
    (hs : s.all p = true) (hr : p (k, r) = true) : (storeSet s k r).all p = true := by
  induction s with
  | nil => simp [storeSet, hr]
  | cons q qs ih =>
    simp only [List.all_cons, Bool.and_eq_true] at hs
    by_cases h : q.1 = k
    · simp [storeSet, h, hr, hs.2]
    · simp [storeSet, h, hs.1, ih hs.2]

theorem load_json_filter_aux (key : String) (rows : List Record) (acc : Store) :
    rows.foldl (loadJsonStep key) acc
      = (rows.filter (fun jd => recordHas jd key)).foldl (loadJsonStep key) acc := by
  induction rows generalizing acc with
  | nil => rfl
  | cons jd rs ih =>
    cases h : recordGet jd key with
    | none => simp [List.filter_cons, recordHas, h, loadJsonStep, ih]
    | some the_id => simp [List.filter_cons, recordHas, h, loadJsonStep, ih]

theorem load_json_all_aux (key : String) (rows : List Record) (acc : Store)
    (hacc : acc.all (fun kv => recordHas kv.2 key) = true) :
    (rows.foldl (loadJsonStep key) acc).all (fun kv => recordHas kv.2 key) = true := by
  induction rows generalizing acc with
  | nil => simpa using hacc
  | cons jd rs ih =>
    simp only [List.foldl_cons]
    cases h : recordGet jd key with
    | none =>
      have : loadJsonStep key acc jd = acc := by simp [loadJsonStep, h]
      rw [this]
      exact ih acc hacc
    | some tid =>
      have : loadJsonStep key acc jd = storeSet acc tid jd := by simp [loadJsonStep, h]
      rw [this]
      exact ih _ (storeSet_all _ acc tid jd hacc (by simp [recordHas, h]))

/-- C4 counterexample: a two-row input whose second row lacks the username
key field is loaded without any error, yielding the store built from only
the first row — no MissingKeyError exists on this path. -/
theorem load_json_returns_partial_store :
    load_json [[("username", Value.str "alice"), ("user_id", Value.int 1)],
               [("user_id", Value.int 2)]] "username"
      = [(Value.str "alice", [("username", Value.str "alice"), ("user_id", Value.int 1)])] := by
  decide

/-- C4 amended: a row lacking the declared key field is reported with a
printed message and skipped, so load_json returns the store built from
exactly the rows that do carry the key (and every stored entry carries the
key); no exception is raised. -/
theorem load_json_skips_rows_without_key (rows : List Record) (key : String) :
    load_json rows key = load_json (rows.filter (fun jd => recordHas jd key)) key
    ∧ (load_json rows key).all (fun kv => recordHas kv.2 key) = true := by
  constructor
  · exact load_json_filter_aux key rows []
  · exact load_json_all_aux key rows [] (by simp)

/-- C6: every record produced by Phase 1 from a seed row appears in the
phase-1 store with registered true and certified always set, certified being
true exactly when the seed row's certificate_status is downloadable or
unavailable and false for every other value, including absence of the
field. -/
theorem phase1_registered_certified (uicdat : Store) (k : Value) (u : Record)
    (h : (k, u) ∈ uicdat) :
    (k, phase1Entry u) ∈ compute_first_phase uicdat
    ∧ recordGet (phase1Entry u) "registered" = some (.bool true)
    ∧ (recordGet (phase1Entry u) "certified" = some (.bool true)
        ∨ recordGet (phase1Entry u) "certified" = some (.bool false))
    ∧ (recordGet (phase1Entry u) "certified" = some (.bool true)
        ↔ (recordGet u "certificate_status" = some (.str "downloadable")
           ∨ recordGet u "certificate_status" = some (.str "unavailable"))) := by
  refine ⟨?_, ?_, ?_, ?_⟩
  · exact List.mem_map_of_mem _ h
  · unfold phase1Entry
    rw [recordGet_set_ne _ _ _ _ (by decide), recordGet_set_self]
  · unfold phase1Entry
    rw [recordGet_set_self]
    cases certStatusCertified u
    · exact Or.inr rfl
    · exact Or.inl rfl
  · unfold phase1Entry
    rw [recordGet_set_self]
    cases hc : recordGet u "certificate_status" with
    | none => simp [certStatusCertified, hc]
    | some v => cases v <;> simp [certStatusCertified, hc]

/-- Witness for phase1_registered_certified: a concrete seed row with
certificate_status downloadable yields registered true and certified true. -/
theorem phase1_registered_certified_witness :
    recordGet (phase1Entry [("username", Value.str "alice"),
        ("certificate_status", Value.str "downloadable")]) "registered"
      = some (Value.bool true)
    ∧ recordGet (phase1Entry [("username", Value.str "alice"),
        ("certificate_status", Value.str "downloadable")]) "certified"
      = some (Value.bool true) := by
  have h := phase1_registered_certified
    [(Value.str "alice",
      [("username", Value.str "alice"), ("certificate_status", Value.str "downloadable")])]
    (Value.str "alice")
    [("username", Value.str "alice"), ("certificate_status", Value.str "downloadable")]
    (by simp)
  exact ⟨h.2.1, h.2.2.2.mpr (Or.inl (by decide))⟩

/-- C7: the sdv_dt aggregate of pc_day_totals is the pooled-variance
combination: on the per-day triples (5,2,10) and (6,1,5) it equals
sqrt((2 squared times 10 + 1 squared times 5) over 15), and differs from the
naive average of the per-day standard deviations. -/
theorem pc_day_totals_sdv_pooled :
    pc_day_totals_sdv [(5, 2, 10), (6, 1, 5)] = Real.sqrt ((2 ^ 2 * 10 + 1 ^ 2 * 5) / 15)
    ∧ pc_day_totals_sdv [(5, 2, 10), (6, 1, 5)] ≠ naive_avg_sdv [(5, 2, 10), (6, 1, 5)] := by
  have h1 : pc_day_totals_sdv [(5, 2, 10), (6, 1, 5)] = Real.sqrt 3 := by
    unfold pc_day_totals_sdv
    norm_num
  have h2 : naive_avg_sdv [(5, 2, 10), (6, 1, 5)] = 3 / 2 := by
    unfold naive_avg_sdv
    norm_num
  constructor
  · rw [h1]
    norm_num
  · rw [h1, h2]
    intro hEq
    have h3 : (3 : Real) = (3 / 2) ^ 2 := by
      rw [← hEq]
      exact (Real.sq_sqrt (by norm_num)).symm
    norm_num at h3

/-- C9 counterexample: the person_course command run with no date overrides
passes end date 2014-09-21 to the pipeline, not 2013-09-21. -/
theorem person_course_cmd_default_end_not_2013 :
    ¬ (person_course_cmd_dates none none).2 = "2013-09-21" := by
  decide

/-- C9 amended: the person_course command without overrides runs the
pipeline with start 2012-09-05 and end 2014-09-21 (explicit non-empty
overrides are passed through); the 2013-09-21 end date is only the default
of the make_person_course function signature, which the command always
overrides. -/
theorem person_course_cmd_dates_spec (s e : String) (hs : s ≠ "") (he : e ≠ "") :
    person_course_cmd_dates none none = ("2012-09-05", "2014-09-21")
    ∧ person_course_cmd_dates (some s) (some e) = (s, e)
    ∧ make_person_course_default_start = "2012-09-05"
    ∧ make_person_course_default_end = "2013-09-21" := by
  refine ⟨rfl, ?_, rfl, rfl⟩
  simp [person_course_cmd_dates, pyOr, hs, he]

/-- Witness for person_course_cmd_dates_spec at concrete override dates. -/
theorem person_course_cmd_dates_spec_witness :
    person_course_cmd_dates (some "2012-10-01") (some "2013-01-01")
      = ("2012-10-01", "2013-01-01") :=
  (person_course_cmd_dates_spec "2012-10-01" "2013-01-01" (by decide) (by decide)).2.1

/-- C3 counterexample: with pc_nchapters already materialized and the
pipeline force-recompute flag true, the nchapters load still reads the
existing table and submits no fresh query (its loader call omits
force_query), while the day-totals load under the same flag re-queries. -/
theorem load_nchapters_ignores_force_flag :
    (load_nchapters envNchaptersOnly "ds").2 = [BqOp.readTable "ds" "pc_nchapters"]
    ∧ (load_pc_day_totals envNchaptersOnly "ds" true).2 = [BqOp.runQuery "ds" "pc_day_totals"] := by
  constructor <;> decide

/-- C3 amended: of the six derived-table loads, pc_forum, pc_day_totals,
pc_last_event, pc_modal_ip and pc_geoip pass the pipeline
force-recompute flag to the loader (fresh query exactly when the flag is set
or the table is missing), but load_nchapters invokes the loader without the
flag, so pc_nchapters is re-queried only when its table does not exist. -/
theorem aggregate_loads_force_flag (env : BqEnv) (ds : String) (force : Bool) :
    ((load_pc_forum env ds force).2
      = if "pc_forum" ∈ env.existingTables ds ∧ force = false
        then [BqOp.readTable ds "pc_forum"] else [BqOp.runQuery ds "pc_forum"])
    ∧ ((load_pc_day_totals env ds force).2
      = if "pc_day_totals" ∈ env.existingTables ds ∧ force = false
        then [BqOp.readTable ds "pc_day_totals"] else [BqOp.runQuery ds "pc_day_totals"])
    ∧ ((load_last_event env ds force).2
      = if "pc_last_event" ∈ env.existingTables ds ∧ force = false
        then [BqOp.readTable ds "pc_last_event"] else [BqOp.runQuery ds "pc_last_event"])
    ∧ ((load_modal_ip env ds force).2
      = if "pc_modal_ip" ∈ env.existingTables ds ∧ force = false
        then [BqOp.readTable ds "pc_modal_ip"] else [BqOp.runQuery ds "pc_modal_ip"])
    ∧ ((load_pc_geoip env ds force).2
      = if "pc_geoip" ∈ env.existingTables ds ∧ force = false
        then [BqOp.readTable ds "pc_geoip"] else [BqOp.runQuery ds "pc_geoip"])
    ∧ ((load_nchapters env ds).2
      = if "pc_nchapters" ∈ env.existingTables ds
        then [BqOp.readTable ds "pc_nchapters"] else [BqOp.runQuery ds "pc_nchapters"]) := by
  refine ⟨get_bq_table_trace env ds "pc_forum" force,
          get_bq_table_trace env ds "pc_day_totals" force,
          get_bq_table_trace env ds "pc_last_event" force,
          get_bq_table_trace env ds "pc_modal_ip" force,
          get_bq_table_trace env ds "pc_geoip" force, ?_⟩
  have h := get_bq_table_trace env ds "pc_nchapters" false
  simpa using h

theorem storeMapE_keys (f : Record → Except (String × Record) Record) (s : Store) :
    storeKeys (resultStore (storeMapE f s)) = storeKeys s := by
  induction s with
  | nil => rfl
  | cons kv rest ih =>
    simp only [storeMapE]
    cases hf : f kv.2 with
    | error e =>
      obtain ⟨msg, pr⟩ := e
      simp [resultStore, storeKeys]
    | ok r2 =>
      cases hr : storeMapE f rest with
      | error e2 =>
        obtain ⟨msg, s2⟩ := e2
        rw [hr] at ih
        simp only [resultStore, storeKeys, List.map_cons] at ih ⊢
        rw [ih]
      | ok s2 =>
        rw [hr] at ih
        simp only [resultStore, storeKeys, List.map_cons] at ih ⊢
        rw [ih]

/-- C8: each of phases 2, 3 and 4 leaves the key set of the record store
unchanged — whether the enrichment loop completes or raises part-way,
the resulting (possibly partially enriched) store has exactly the keys of
the input store. -/
theorem phases_preserve_store_keys (env : BqEnv) (force : Bool) (dataset : String)
    (struct : Store) (conv : Value → Option String) (pctab : Store) :
    storeKeys (resultStore (compute_second_phase env force dataset struct pctab).1)
      = storeKeys pctab
    ∧ storeKeys (resultStore (compute_third_phase env force conv dataset pctab).1)
      = storeKeys pctab
    ∧ storeKeys (resultStore (compute_fourth_phase env force dataset pctab).1)
      = storeKeys pctab := by
  refine ⟨?_, storeMapE_keys _ _, storeMapE_keys _ _⟩
  unfold compute_second_phase
  cases get_nchapters_from_course_structure struct with
  | error e => rfl
  | ok n => exact storeMapE_keys _ _

theorem storeMapE_error_of_mem (f : Record → Except (String × Record) Record) (s : Store)
    (h : ∃ kv, kv ∈ s ∧ ∃ e, f kv.2 = .error e) :
    ∃ e2, storeMapE f s = .error e2 := by
  induction s with
  | nil =>
    obtain ⟨kv, hm, _⟩ := h
    exact absurd hm (List.not_mem_nil kv)
  | cons kv rest ih =>
    simp only [storeMapE]
    cases hf : f kv.2 with
    | error e =>
      obtain ⟨msg, pr⟩ := e
      exact ⟨_, rfl⟩
    | ok r2 =>
      obtain ⟨kv2, hm, e3, he⟩ := h
      rcases List.mem_cons.mp hm with heq | hmem
      · subst heq
        rw [hf] at he
        simp at he
      · obtain ⟨e4, h4⟩ := ih ⟨kv2, hmem, e3, he⟩
        rw [h4]
        obtain ⟨msg, s4⟩ := e4
        exact ⟨_, rfl⟩

/-- C10: Phase 2 requires every record to carry user_id — whenever some
record of the store lacks it (and the chapter count itself computes), the
compute_second_phase loop raises a key-lookup error instead of skipping the
record. -/
theorem phase2_requires_user_id (env : BqEnv) (force : Bool) (dataset : String)
    (struct : Store) (pctab : Store) (n : Nat)
    (hn : get_nchapters_from_course_structure struct = .ok n)
    (h : ∃ kv, kv ∈ pctab ∧ recordGet kv.2 "user_id" = none) :
    ∃ e, (compute_second_phase env force dataset struct pctab).1 = .error e := by
  unfold compute_second_phase
  rw [hn]
  apply storeMapE_error_of_mem
  obtain ⟨kv, hm, hu⟩ := h
  refine ⟨kv, hm, ?_⟩
  unfold phase2Record
  rw [hu]
  exact ⟨_, rfl⟩

/-- Witness for phase2_requires_user_id: on a concrete two-record store
whose second record lacks user_id, Phase 2 raises, and the store carried by
the error is partially enriched — the first record got viewed false, the
second is untouched. -/
theorem phase2_requires_user_id_witness :
    (∃ e, (compute_second_phase envNoTables false "ds" struct0 pctab0).1 = .error e)
    ∧ (compute_second_phase envNoTables false "ds" struct0 pctab0).1
      = .error ("KeyError: user_id",
          [(.str "alice",
            [("user_id", .int 1), ("username", .str "alice"), ("viewed", .bool false)]),
           (.str "bob", [("username", .str "bob")])]) := by
  constructor
  · exact phase2_requires_user_id envNoTables false "ds" struct0 pctab0 1 (by decide)
      ⟨(.str "bob", [("username", .str "bob")]), by decide, by decide⟩
  · decide

/-- C5: one Phase 2 iteration on a record whose user_id is a key of the
pc_nchapters aggregate sets viewed true, nchapters to the aggregate count n
and explored to the comparison of n with half the chapter count under floor
division; on a record whose user_id is absent from the aggregate it sets
viewed false and leaves explored (and nchapters) unset. -/
theorem phase2_viewed_nchapters_explored (pc_nchapters pc_forum : BqTable) (total : Nat)
    (pcent : Record) (v : Value)
    (hu : recordGet pcent "user_id" = some v) :
    (∀ row nv n, storeGet pc_nchapters.data_by_key (.str (pyStr v)) = some row →
      recordGet row "nchapters" = some nv → pyInt nv = some n →
      ∃ r2, phase2Record pc_nchapters pc_forum total pcent = .ok r2
        ∧ recordGet r2 "viewed" = some (.bool true)
        ∧ recordGet r2 "nchapters" = some (.int n)
        ∧ recordGet r2 "explored" = some (.bool (decide (((total / 2 : Nat) : Int) ≤ n))))
    ∧ (storeGet pc_nchapters.data_by_key (.str (pyStr v)) = none →
      ∃ r2, phase2Record pc_nchapters pc_forum total pcent = .ok r2
        ∧ recordGet r2 "viewed" = some (.bool false)
        ∧ recordGet r2 "explored" = recordGet pcent "explored"
        ∧ recordGet r2 "nchapters" = recordGet pcent "nchapters") := by
  constructor
  · intro row nv n hrow hnv hn
    have hok : phase2Record pc_nchapters pc_forum total pcent
        = .ok (copyFieldList pc_forum (.str (pyStr v)) forumFieldPairs
            (recordSet
              (recordSet (recordSet pcent "viewed" (.bool true)) "nchapters" (.int n))
              "explored" (.bool (decide (((total / 2 : Nat) : Int) ≤ n))))) := by
      simp only [phase2Record, hu, hrow, hnv, hn]
    refine ⟨_, hok, ?_, ?_, ?_⟩
    · rw [recordGet_copyFieldList_ne _ _ _ _ _ (by decide),
        recordGet_set_ne _ _ _ _ (by decide), recordGet_set_ne _ _ _ _ (by decide),
        recordGet_set_self]
    · rw [recordGet_copyFieldList_ne _ _ _ _ _ (by decide),
        recordGet_set_ne _ _ _ _ (by decide), recordGet_set_self]
    · rw [recordGet_copyFieldList_ne _ _ _ _ _ (by decide), recordGet_set_self]
  · intro habs
    have hok : phase2Record pc_nchapters pc_forum total pcent
        = .ok (copyFieldList pc_forum (.str (pyStr v)) forumFieldPairs
            (recordSet pcent "viewed" (.bool false))) := by
      simp only [phase2Record, hu, habs]
    refine ⟨_, hok, ?_, ?_, ?_⟩
    · rw [recordGet_copyFieldList_ne _ _ _ _ _ (by decide), recordGet_set_self]
    · rw [recordGet_copyFieldList_ne _ _ _ _ _ (by decide),
        recordGet_set_ne _ _ _ _ (by decide)]
    · rw [recordGet_copyFieldList_ne _ _ _ _ _ (by decide),
        recordGet_set_ne _ _ _ _ (by decide)]

/-- Witness for phase2_viewed_nchapters_explored: with 10 course chapters, a
user with 5 viewed chapters gets explored true, one with 4 gets explored
false, and a user absent from the aggregate gets viewed false with explored
left unset. -/
theorem phase2_viewed_nchapters_explored_witness :
    Except.map (fun r => recordGet r "explored") (phase2Record nchT forumT 10 recA)
      = .ok (some (.bool true))
    ∧ Except.map (fun r => recordGet r "explored") (phase2Record nchT forumT 10 recB)
      = .ok (some (.bool false))
    ∧ Except.map (fun r => (recordGet r "viewed", recordGet r "explored"))
        (phase2Record nchT forumT 10 recC)
      = .ok (some (.bool false), none) := by
  refine ⟨?_, ?_, ?_⟩
  · obtain ⟨r2, hok, hv, hn, hx⟩ :=
      (phase2_viewed_nchapters_explored nchT forumT 10 recA (.int 1) (by decide)).1
        [("nchapters", Value.int 5)] (Value.int 5) 5 (by decide) (by decide) (by decide)
    rw [hok, Except.map]
    norm_num at hx
    rw [hx]
  · obtain ⟨r2, hok, hv, hn, hx⟩ :=
      (phase2_viewed_nchapters_explored nchT forumT 10 recB (.int 2) (by decide)).1
        [("nchapters", Value.int 4)] (Value.int 4) 4 (by decide) (by decide) (by decide)
    rw [hok, Except.map]
    norm_num at hx
    rw [hx]
  · obtain ⟨r2, hok, hv, hx, hn⟩ :=
      (phase2_viewed_nchapters_explored nchT forumT 10 recC (.int 3) (by decide)).2
        (by decide)
    rw [hok, Except.map]
    rw [hv, hx]
    rfl

theorem findMissing_of_missing (tables : List String) (tpre : String) (l : List String)
    (h : ∃ k, k ∈ l ∧ (tpre ++ "_" ++ k) ∉ tables) :
    ∃ k, k ∈ l ∧ findMissing tables tpre l = some k := by
  induction l with
  | nil =>
    obtain ⟨k, hk, _⟩ := h
    exact absurd hk (List.not_mem_nil k)
  | cons a as ih =>
    by_cases ha : (tpre ++ "_" ++ a) ∈ tables
    · obtain ⟨k, hk, hnot⟩ := h
      rcases List.mem_cons.mp hk with rfl | hmem
      · exact absurd ha hnot
      · obtain ⟨k2, hk2, hf⟩ := ih ⟨k, hmem, hnot⟩
        exact ⟨k2, List.mem_cons_of_mem _ hk2, by simpa [findMissing, ha] using hf⟩
    · exact ⟨a, List.mem_cons_self a as, by simp [findMissing, ha]⟩

/-- C1 counterexample: with no daily table materialized at all, Phase 3
completes without raising, and its remote trace is exactly the three
aggregate queries — no table-existence check and no fatal error naming a
missing table precedes them; the never-invoked helper, called directly on
the same engine, does detect and name the missing first daily table. -/
theorem compute_third_phase_no_completeness_check :
    (compute_third_phase envNoTables true (fun _ => none) "ds" []).1 = .ok []
    ∧ (compute_third_phase envNoTables true (fun _ => none) "ds" []).2
      = [BqOp.runQuery "ds" "pc_last_event", BqOp.runQuery "ds" "pc_day_totals",
         BqOp.runQuery "ds" "pc_modal_ip"]
    ∧ (ensure_all_pc_day_tables_loaded envNoTables "ds" "2012-09-05" "2012-09-06").1
      = .error "Oops, missing needed table pcday_20120905 from database ds_pcday" := by
  refine ⟨by decide, by decide, by decide⟩

/-- C1 amended: compute_third_phase performs no daily-table completeness
check — its remote trace never contains a table-listing operation, the three
aggregate loads being issued unconditionally; the helper
ensure_all_daily_tables_loaded, which raises a fatal error naming a missing
daily table of the range when invoked, is not invoked by Phase 3. -/
theorem third_phase_no_check_amended (env : BqEnv) (force : Bool)
    (conv : Value → Option String) (ds : String) (pctab : Store)
    (env2 : BqEnv) (ds2 dsuf tpre sd ed : String) (s e : Date)
    (hs : d2dt sd = some s) (he : d2dt ed = some e)
    (hmiss : ∃ k, k ∈ daterange s e
      ∧ (tpre ++ "_" ++ k) ∉ env2.existingTables (ds2 ++ "_" ++ dsuf)) :
    (∀ d, BqOp.getTables d ∉ (compute_third_phase env force conv ds pctab).2)
    ∧ ∃ k, k ∈ daterange s e
        ∧ (ensure_all_daily_tables_loaded env2 ds2 dsuf tpre sd ed).1
          = .error ("Oops, missing needed table " ++ tpre ++ "_" ++ k
              ++ " from database " ++ (ds2 ++ "_" ++ dsuf)) := by
  constructor
  · intro d
    simp only [compute_third_phase, load_last_event, load_pc_day_totals, load_modal_ip,
      get_bq_table]
    split <;> split <;> split <;> simp
  · obtain ⟨k, hk, hf⟩ := findMissing_of_missing _ tpre _ hmiss
    refine ⟨k, hk, ?_⟩
    simp only [ensure_all_daily_tables_loaded, hs, he, hf]

/-- Witness for third_phase_no_check_amended at a concrete engine with no
daily tables and the concrete two-day range 2012-09-05 to 2012-09-06. -/
theorem third_phase_no_check_amended_witness :
    BqOp.getTables "ds_pcday" ∉ (compute_third_phase envNoTables false (fun _ => none) "ds" []).2
    ∧ ∃ k, k ∈ daterange ⟨2012, 9, 5⟩ ⟨2012, 9, 6⟩
        ∧ (ensure_all_daily_tables_loaded envNoTables "ds" "pcday" "pcday"
            "2012-09-05" "2012-09-06").1
          = .error ("Oops, missing needed table " ++ "pcday" ++ "_" ++ k
              ++ " from database " ++ ("ds" ++ "_" ++ "pcday")) := by
  have h := third_phase_no_check_amended envNoTables false (fun _ => none) "ds" []
    envNoTables "ds" "pcday" "pcday" "2012-09-05" "2012-09-06" ⟨2012, 9, 5⟩ ⟨2012, 9, 6⟩
    (by decide) (by decide) ⟨"20120905", by decide, by decide⟩
  exact ⟨h.1 "ds_pcday", h.2⟩

theorem recordGet_append (a b : Record) (k : String) :
    recordGet (a ++ b) k = ((recordGet a k).elim (recordGet b k) some) := by
  induction a with
  | nil => rfl
  | cons p ps ih =>
    by_cases hp : p.1 = k
    · simp [recordGet, hp]
    · simpa [recordGet, hp] using ih

theorem recordGet_none_of_all_ne (b : Record) (k : String) (h : ∀ p ∈ b, p.1 ≠ k) :
    recordGet b k = none := by
  induction b with
  | nil => rfl
  | cons p ps ih =>
    have hp := h p (List.mem_cons_self p ps)
    simp [recordGet, hp, ih (fun q hq => h q (List.mem_cons_of_mem p hq))]

theorem recordGet_map_declared (sd : SchemaDict) (r : Record) (k : String)
    (hk : k ∉ sd.fields) :
    recordGet (r.map (fun p => if p.1 ∈ sd.fields then (p.1, sd.cast p.1 p.2) else p)) k
      = recordGet r k := by
  induction r with
  | nil => rfl
  | cons p ps ih =>
    by_cases hp : p.1 ∈ sd.fields
    · have hne : p.1 ≠ k := fun hh => hk (hh ▸ hp)
      simp [recordGet, hp, hne, ih]
    · simp only [List.map_cons, if_neg hp]
      by_cases hpk : p.1 = k
      · simp [recordGet, hpk]
      · simp [recordGet, hpk, ih]

theorem coerce_appended_keys_declared (sd : SchemaDict) (r : Record) (p : String × Value)
    (hp : p ∈ (sd.fields.filter (fun f => (recordGet r f).isNone)).filterMap
      (fun f => (sd.defaultVal f).map (fun v => (f, v)))) :
    p.1 ∈ sd.fields := by
  obtain ⟨f, hf, hg⟩ := List.mem_filterMap.mp hp
  obtain ⟨v, _, hv⟩ := Option.map_eq_some'.mp hg
  have : p.1 = f := by rw [← hv]
  rw [this]
  exact (List.mem_filter.mp hf).1

/-- Undeclared fields pass through check_schema coercion unchanged. -/
theorem recordGet_coerce_undeclared (sd : SchemaDict) (r : Record) (k : String)
    (hk : k ∉ sd.fields) :
    recordGet (check_schema_coerce sd r) k = recordGet r k := by
  unfold check_schema_coerce
  rw [recordGet_append]
  have happ : recordGet ((sd.fields.filter (fun f => (recordGet r f).isNone)).filterMap
      (fun f => (sd.defaultVal f).map (fun v => (f, v)))) k = none := by
    apply recordGet_none_of_all_ne
    intro p hp hpk
    exact hk (hpk ▸ coerce_appended_keys_declared sd r p hp)
  rw [recordGet_map_declared sd r k hk]
  cases h : recordGet r k with
  | none => simp [happ]
  | some v => rfl

theorem any_undeclared_map (sd : SchemaDict) (r : Record) :
    ((r.map (fun p => if p.1 ∈ sd.fields then (p.1, sd.cast p.1 p.2) else p)).any
      (fun p => decide (p.1 ∉ sd.fields)))
    = r.any (fun p => decide (p.1 ∉ sd.fields)) := by
  induction r with
  | nil => rfl
  | cons p ps ih =>
    simp only [List.map_cons, List.any_cons, ih]
    by_cases hp : p.1 ∈ sd.fields
    · simp [hp]
    · simp [hp]

theorem hasUndeclared_coerce (sd : SchemaDict) (r : Record) :
    hasUndeclared sd.fields (check_schema_coerce sd r) = hasUndeclared sd.fields r := by
  unfold hasUndeclared check_schema_coerce
  rw [List.any_append]
  have h2 : ((sd.fields.filter (fun f => (recordGet r f).isNone)).filterMap
      (fun f => (sd.defaultVal f).map (fun v => (f, v)))).any
        (fun p => decide (p.1 ∉ sd.fields)) = false := by
    rw [List.any_eq_false]
    intro p hp
    simpa using coerce_appended_keys_declared sd r p hp
  rw [h2, Bool.or_false]
  exact any_undeclared_map sd r

theorem writeRows_error_of_mem (fns : List String) (rs : List Record)
    (h : ∃ r, r ∈ rs ∧ hasUndeclared fns r = true) :
    ∃ m, writeRows fns rs = .error m := by
  induction rs with
  | nil =>
    obtain ⟨r, hm, _⟩ := h
    exact absurd hm (List.not_mem_nil r)
  | cons r rs ih =>
    obtain ⟨r2, hm, hr2⟩ := h
    by_cases hr : hasUndeclared fns r = true
    · exact ⟨"ValueError: dict contains fields not in fieldnames",
        by simp [writeRows, dictWriterRow, hr]⟩
    · rcases List.mem_cons.mp hm with rfl | hmem
      · exact absurd hr2 hr
      · obtain ⟨m, hm2⟩ := ih ⟨r2, hmem, hr2⟩
        refine ⟨m, ?_⟩
        simp [writeRows, dictWriterRow, hr, hm2]

theorem writeRows_ok_of_clean (fns : List String) (rs : List Record)
    (h : ∀ r ∈ rs, hasUndeclared fns r = false) :
    writeRows fns rs
      = .ok (rs.map (fun r => fns.map (fun f => (recordGet r f).getD (.str "")))) := by
  induction rs with
  | nil => rfl
  | cons r rs ih =>
    have hr := h r (List.mem_cons_self r rs)
    have hrest := ih (fun q hq => h q (List.mem_cons_of_mem r hq))
    simp [writeRows, dictWriterRow, hr, hrest]

/-- C2 counterexample: a record with the undeclared extra field zzz passes
through unchanged into the structured output, but the flattened write
raises a ValueError (which output_table re-raises), so publishing such a
record does fail. -/
theorem output_table_extra_field_fails :
    (output_table sdEx storeEx).2 = .error "ValueError: dict contains fields not in fieldnames"
    ∧ (output_table sdEx storeEx).1
      = [[("course_id", .str "C1"), ("user_id", .int 1), ("zzz", .str "extra")]] := by
  refine ⟨by decide, by decide⟩

/-- C2 amended: a field present in a record but not declared in the schema
passes through coercion unchanged into the structured output line; the
flattened output's columns are exactly the declared schema field list, but
any record carrying an undeclared field makes the flattened write raise an
error that output_table logs and re-raises — publishing such a record fails
instead of omitting the field; stores with no undeclared fields flatten
successfully with the schema columns. -/
theorem output_table_extra_fields_amended (sd : SchemaDict) (pctab : Store) (r : Record)
    (k : String) (hk : k ∉ sd.fields) :
    ((output_table sd pctab).1 = pctab.map (fun kv => check_schema_coerce sd kv.2))
    ∧ recordGet (check_schema_coerce sd r) k = recordGet r k
    ∧ ((∃ kv, kv ∈ pctab ∧ hasUndeclared sd.fields kv.2 = true) →
        ∃ m, (output_table sd pctab).2 = .error m)
    ∧ ((∀ kv, kv ∈ pctab → hasUndeclared sd.fields kv.2 = false) →
        (output_table sd pctab).2
          = .ok (pctab.map (fun kv => sd.fields.map (fun f =>
              (recordGet (check_schema_coerce sd kv.2) f).getD (.str ""))))) := by
  refine ⟨rfl, recordGet_coerce_undeclared sd r k hk, ?_, ?_⟩
  · intro hex
    obtain ⟨kv, hm, hu⟩ := hex
    apply writeRows_error_of_mem
    exact ⟨check_schema_coerce sd kv.2, List.mem_map_of_mem _ hm,
      by rw [hasUndeclared_coerce]; exact hu⟩
  · intro h
    have hclean : ∀ r2 ∈ pctab.map (fun kv => check_schema_coerce sd kv.2),
        hasUndeclared sd.fields r2 = false := by
      intro r2 hr2
      obtain ⟨kv, hkv, rfl⟩ := List.mem_map.mp hr2
      rw [hasUndeclared_coerce]
      exact h kv hkv
    have hw := writeRows_ok_of_clean sd.fields _ hclean
    show writeRows sd.fields (pctab.map (fun kv => check_schema_coerce sd kv.2)) = _
    rw [hw, List.map_map]
    rfl

/-- Witness for output_table_extra_fields_amended: the concrete extra field
zzz survives coercion unchanged and makes the concrete publish fail. -/
theorem output_table_extra_fields_amended_witness :
    recordGet (check_schema_coerce sdEx [("zzz", Value.str "extra")]) "zzz"
      = some (Value.str "extra")
    ∧ ∃ m, (output_table sdEx storeEx).2 = .error m := by
  have h := output_table_extra_fields_amended sdEx storeEx
    [("zzz", Value.str "extra")] "zzz" (by decide)
  refine ⟨?_, h.2.2.1 ⟨(Value.str "alice",
    [("course_id", .str "C1"), ("user_id", .int 1), ("zzz", .str "extra")]),
    by decide, by decide⟩⟩
  rw [h.2.1]
  decide

end Edx2BigQuery
